import Mathlib

/-!
Shallow embedding of the data-broker removal tool (TypeScript sources:
removal-engine.ts, ai-analyzer.ts, cli.ts, types.ts, index.ts).

JavaScript strings are modelled as Lean `String` / `List Char`; the external
page-understanding oracle is modelled as a record of the structured responses
each `extract` probe returns, and each effectful run returns the value the
code computes together with a trace of the oracle calls it issued.  JS `NaN`
(which `parseInt` can produce) is modelled as `none : Option Int`.
-/

/-! ## Basic JS-string primitives, modelled structurally over `List Char` -/

/-- The characters JS `\s` (and `String.prototype.trim`) treats as whitespace,
restricted to the ASCII range that the modelled strings use. -/
def isJsWs (c : Char) : Bool :=
  c == ' ' || c == '\t' || c == '\n' || c == '\r' || c.val == 11 || c.val == 12

/-- JS `String.prototype.trim` on a character list. -/
def trimChars (l : List Char) : List Char :=
  ((l.dropWhile isJsWs).reverse.dropWhile isJsWs).reverse

/-- JS `String.prototype.split(sep)` for a one-character separator:
`"".split(c)` is `[""]`, and separators at the ends produce empty parts. -/
def splitChar (c : Char) : List Char → List (List Char)
  | [] => [[]]
  | h :: t =>
    match splitChar c t with
    | [] => [[]]
    | cur :: rest => if h == c then [] :: cur :: rest else (h :: cur) :: rest

/-- JS `Array.prototype.join(sep)` for a one-character separator. -/
def joinSep (c : Char) : List (List Char) → List Char
  | [] => []
  | [x] => x
  | x :: xs => x ++ c :: joinSep c xs

/-- Does `hay` start with `needle`? -/
def hasPre : List Char → List Char → Bool
  | _, [] => true
  | [], _ :: _ => false
  | a :: as, b :: bs => a == b && hasPre as bs

/-- JS `String.prototype.includes`: does `hay` contain `needle` as a
contiguous substring? -/
def containsSub : List Char → List Char → Bool
  | [], n => n.isEmpty
  | h :: t, n => hasPre (h :: t) n || containsSub t n

/-- Lower-case a character list (ASCII, as `Char.toLower`). -/
def lowerChars (l : List Char) : List Char := l.map Char.toLower

/-- `line.toLowerCase().includes(kw)` from the analyzer's keyword matching. -/
def lowIncludes (line : List Char) (kw : String) : Bool :=
  containsSub (lowerChars line) kw.toList

/-- Decimal value of a digit run. -/
def decVal (l : List Char) : Nat :=
  l.foldl (fun acc c => acc * 10 + (c.toNat - 48)) 0

/-- Hex digit test for JS `parseInt`'s `0x` form. -/
def isHexDigit (c : Char) : Bool :=
  c.isDigit || ('a' ≤ c && c ≤ 'f') || ('A' ≤ c && c ≤ 'F')

/-- Hex value of a hex-digit run. -/
def hexVal (l : List Char) : Nat :=
  l.foldl (fun acc c =>
    acc * 16 +
      (if c.isDigit then c.toNat - 48
       else if 'a' ≤ c && c ≤ 'f' then c.toNat - 87
       else c.toNat - 55)) 0

/-- The unsigned part of JS `parseInt` (radix unspecified): a leading `0x`
run of hex digits, else a leading run of decimal digits; no digits is NaN. -/
def jsParseNat (l : List Char) : Option Nat :=
  match l with
  | '0' :: c :: r =>
    if c == 'x' || c == 'X' then
      let ds := r.takeWhile isHexDigit
      if ds.isEmpty then none else some (hexVal ds)
    else
      some (decVal (('0' :: c :: r).takeWhile Char.isDigit))
  | t =>
    let ds := t.takeWhile Char.isDigit
    if ds.isEmpty then none else some (decVal ds)

/-- JS `parseInt` on an already-trimmed string; `none` models `NaN`. -/
def jsParseInt (l : List Char) : Option Int :=
  match l with
  | '+' :: t => (jsParseNat t).map Int.ofNat
  | '-' :: t => (jsParseNat t).map (fun n => -(n : Int))
  | t => (jsParseNat t).map Int.ofNat

/-! ## AIAnalyzer.parseAnalysisResponse (ai-analyzer.ts, lines 136-184) -/

/-- The analyzer's structured diagnosis (interface FailureAnalysis).
`confidence : Option Int` models a JS number where `none` is `NaN`. -/
structure FailureAnalysis where
  problem : String
  suggestedFix : String
  nextSteps : List String
  specialInstructions : String
  confidence : Option Int
deriving DecidableEq, Repr

/-- `Math.max(1, Math.min(10, conf))` on a JS number: `NaN` propagates. -/
def clampConf (x : Option Int) : Option Int :=
  x.map (fun n => max 1 (min 10 n))

/-- `line.split(':').slice(1).join(':').trim()`: everything after the first
colon, trimmed. -/
def afterColon (line : List Char) : List Char :=
  trimChars (joinSep ':' ((splitChar ':' line).drop 1))

/-- `line.split(':')[1]?.trim() || '5'`: the text between the first and
second colon, trimmed, defaulting to `"5"` when empty or absent. -/
def confArg (line : List Char) : List Char :=
  let t := trimChars (((splitChar ':' line).drop 1).headD [])
  if t.isEmpty then ['5'] else t

/-- `steps.split(',').map(s => s.trim()).filter(s => s.length > 0)`. -/
def splitSteps (l : List Char) : List (List Char) :=
  ((splitChar ',' l).map trimChars).filter (fun s => !s.isEmpty)

/-- The mutable locals of `parseAnalysisResponse`'s line loop. -/
structure ParseSt where
  p : List Char
  f : List Char
  steps : List (List Char)
  conf : Option Int
deriving DecidableEq, Repr

/-- One iteration of the analyzer's line loop: an else-if chain of
case-insensitive keyword probes, the matching field overwritten. -/
def parseStep (st : ParseSt) (line : List Char) : ParseSt :=
  if lowIncludes line "problem:" || lowIncludes line "issue:" then
    { st with p := afterColon line }
  else if lowIncludes line "fix:" || lowIncludes line "solution:" then
    { st with f := afterColon line }
  else if lowIncludes line "steps:" || lowIncludes line "next:" then
    { st with steps := splitSteps (afterColon line) }
  else if lowIncludes line "confidence:" then
    { st with conf := clampConf (jsParseInt (confArg line)) }
  else st

/-- `AIAnalyzer.parseAnalysisResponse`: fold the keyword loop over the
response's lines (initial confidence 5), then apply the fallback defaults;
`specialInstructions` is assigned the final `suggestedFix`. -/
def parseAnalysisResponse (response : String) : FailureAnalysis :=
  let st := (splitChar '\n' response.toList).foldl parseStep ⟨[], [], [], some 5⟩
  let p := if st.p.isEmpty then response.toList.take 200 ++ "...".toList else st.p
  let f := if st.f.isEmpty then "Manual review required".toList else st.f
  ⟨String.mk p, String.mk f, st.steps.map String.mk, String.mk f, st.conf⟩

/-- The zero-confidence placeholder returned by
`analyzeFailureScreenshot`'s catch branch (ai-analyzer.ts, lines 87-93). -/
def analysisFailedPlaceholder : FailureAnalysis :=
  ⟨"Analysis failed", "Manual review required", ["Check screenshot manually"], "", some 0⟩

/-- Does a line match any of the analyzer's labeled-field probes? -/
def isLabeledLine (line : List Char) : Bool :=
  lowIncludes line "problem:" || lowIncludes line "issue:" ||
  lowIncludes line "fix:" || lowIncludes line "solution:" ||
  lowIncludes line "steps:" || lowIncludes line "next:" ||
  lowIncludes line "confidence:"

/-- Does the response contain any labeled field line at all? -/
def hasLabeledLine (response : String) : Bool :=
  (splitChar '\n' response.toList).any isLabeledLine

/-! ## Broker catalog and AIAnalyzer.updateBrokerWithAnalysis / saveUpdatedBroker
(ai-analyzer.ts, lines 346-379; types.ts BrokerSchema) -/

/-- A broker catalog entry (BrokerSchema). -/
structure Broker where
  name : String
  url : String
  opt_out_url : String
  requires_id_upload : Bool
  notes : String
deriving DecidableEq, Repr

/-- JS `x >= k` on a number that may be `NaN` (`none`): `NaN >= k` is false. -/
def jsGe (x : Option Int) (k : Int) : Bool :=
  match x with
  | none => false
  | some n => k ≤ n

/-- JS string interpolation of a number (`NaN` prints as "NaN"). -/
def numStr (x : Option Int) : String :=
  match x with
  | none => "NaN"
  | some n => toString n

/-- `AIAnalyzer.saveUpdatedBroker`: read the catalog, replace the first
entry whose name equals the updated broker's name, and write the file back;
when no entry matches, nothing is written.  Returns the resulting catalog
and whether a write occurred. -/
def saveUpdatedBroker (updatedBroker : Broker) (catalog : List Broker) :
    List Broker × Bool :=
  match catalog.findIdx? (fun b => b.name == updatedBroker.name) with
  | some i => (catalog.set i updatedBroker, true)
  | none => (catalog, false)

/-- `AIAnalyzer.updateBrokerWithAnalysis`: when the diagnosis confidence is
at least 6 (JS `>=`, false on `NaN`), append the timestamped annotation to a
copy of the broker's notes and persist the catalog; otherwise return the
broker unchanged and touch nothing.  Returns the broker handed back to the
caller, the catalog after the call, and whether the save was invoked. -/
def updateBrokerWithAnalysis (broker : Broker) (analysis : FailureAnalysis)
    (catalog : List Broker) : Broker × List Broker × Bool :=
  if jsGe analysis.confidence 6 then
    let updatedBroker :=
      { broker with notes :=
          broker.notes ++ "\n\nAI Analysis (" ++ numStr analysis.confidence ++
            "/10): " ++ analysis.specialInstructions }
    ((updatedBroker, (saveUpdatedBroker updatedBroker catalog).1, true))
  else ((broker, catalog, false))

/-! ## RemovalEngine (removal-engine.ts): oracle responses, call trace,
and the per-broker workflow -/

/-- User profile (UserSchema), as the engine consumes it. -/
structure User where
  firstName : String
  lastName : String
  email : String
  address : String
  city : String
  state : String
  zip : String
  phone : String
  dateOfBirth : String
  additionalNotes : String
deriving DecidableEq, Repr

/-- Response of `checkIfNeedsSearch`'s extract probe. -/
structure SearchCheck where
  hasSearchForm : Bool
  hasRemovalForm : Bool
  pageType : String
  needsSearchFirst : Bool
deriving DecidableEq, Repr

/-- Response of `findAndClickListing`'s first extract probe. -/
structure ListingCheck where
  foundListing : Bool
  listingText : String
  clickedListing : Bool
deriving DecidableEq, Repr

/-- Response of `findAndClickListing`'s relaxed fallback probe. -/
structure FallbackCheck where
  foundPossibleListing : Bool
  clickedPossibleListing : Bool
deriving DecidableEq, Repr

/-- Response of `fillRemovalForm`'s field-verification probe. -/
structure FieldCheck where
  allFieldsFilled : Bool
  missingFields : List String
  filledFields : List String
deriving DecidableEq, Repr

/-- Response of `handleCheckboxesAndTerms`'s checkbox probe. -/
structure CheckboxCheck where
  foundCheckboxes : Bool
  checkedCheckboxes : Bool
  checkboxCount : Int
  checkboxTypes : List String
deriving DecidableEq, Repr

/-- Response of `handleCheckboxesAndTerms`'s radio-button probe. -/
structure RadioCheck where
  foundRadioButtons : Bool
  selectedRadioButtons : Bool
  radioButtonCount : Int
deriving DecidableEq, Repr

/-- Response of `submitRemovalForm`'s readiness probe. -/
structure SubmitFormCheck where
  formReady : Bool
  missingFields : List String
  uncheckedCheckboxes : List String
  submitButtonText : String
deriving DecidableEq, Repr

/-- Response of `submitRemovalForm`'s post-fix readiness recheck. -/
structure SubmitRecheck where
  formReady : Bool
  stillMissing : List String
deriving DecidableEq, Repr

/-- Response of `verifySubmission`'s error-indicator probe. -/
structure ErrCheck where
  foundErrorIndicators : Bool
  errorMessages : List String
  hasMissingFields : Bool
  hasUncheckedCheckboxes : Bool
deriving DecidableEq, Repr

/-- Response of `verifySubmission`'s success-indicator probe. -/
structure SuccCheck where
  foundSuccessText : Bool
  successText : String
  pageTitle : String
  mainContent : String
deriving DecidableEq, Repr

/-- Response of `verifySubmission`'s still-on-form probe. -/
structure StillFormCheck where
  stillOnForm : Bool
  hasSubmitButton : Bool
  hasFormFields : Bool
  pageType : String
deriving DecidableEq, Repr

/-- One simulated run of the page-understanding oracle for a single broker
attempt: the structured response each probe would return, whether navigation
throws (with its message), whether the screenshot capture succeeds, and the
text the failure-analysis model would return. -/
structure Oracle where
  navFailure : Option String
  searchCheck : SearchCheck
  listingCheck : ListingCheck
  fallbackCheck : FallbackCheck
  fieldCheck : FieldCheck
  checkboxCheck : CheckboxCheck
  radioCheck : RadioCheck
  submitFormCheck : SubmitFormCheck
  submitRecheck : SubmitRecheck
  errCheck : ErrCheck
  succCheck : SuccCheck
  stillFormCheck : StillFormCheck
  screenshotOk : Bool
  analysisResponse : String
deriving DecidableEq, Repr

/-- The oracle calls a broker attempt can issue, tagged by workflow phase. -/
inductive Call where
  | navigate
  | searchExtract
  | searchAct
  | listingExtract
  | fallbackExtract
  | instructionAct
  | fillAct
  | fieldExtract
  | fillRetryAct
  | checkboxExtract
  | radioExtract
  | submitFillAct
  | submitFormExtract
  | checkboxFixAct
  | recheckExtract
  | submitClickAct
  | errorExtract
  | successExtract
  | stillFormExtract
  | screenshotCall
  | analysisCall
deriving DecidableEq, Repr

/-- The per-attempt result record (RemovalResult, plus the screenshot and
aiAnalysis fields the engine attaches dynamically). -/
structure RemovalResult where
  brokerName : String
  success : Bool
  error : Option String
  details : Option String
  screenshot : Option String
  aiAnalysis : Option FailureAnalysis
deriving DecidableEq, Repr

/-- The engine's hard-coded allow-list of search-first brokers. -/
def searchFirstBrokers : List String :=
  ["Whitepages", "Spokeo", "BeenVerified", "Intelius", "TruthFinder",
   "MyLife", "Radaris", "US Search", "411.com", "411 Locate"]

/-- `RemovalEngine.checkIfNeedsSearch`: the probe's `needsSearchFirst` field
OR'd with the hard-coded allow-list. -/
def checkIfNeedsSearch (o : Oracle) (broker : Broker) : Bool × List Call :=
  (o.searchCheck.needsSearchFirst || searchFirstBrokers.contains broker.name,
   [Call.searchExtract])

/-- `RemovalEngine.findAndClickListing`: the exact-match probe, then on a
miss one relaxed retry probe. -/
def findAndClickListing (o : Oracle) : Bool × List Call :=
  if o.listingCheck.foundListing && o.listingCheck.clickedListing then
    (true, [Call.listingExtract])
  else
    (o.fallbackCheck.foundPossibleListing && o.fallbackCheck.clickedPossibleListing,
     [Call.listingExtract, Call.fallbackExtract])

/-- The notes-marker test guarding the special-instruction phase
(removal-engine.ts line 149 and 389): notes truthy and containing one of the
marker substrings. -/
def hasSpecialMarkers (notes : String) : Bool :=
  !notes.toList.isEmpty &&
    (containsSub notes.toList "AI Analysis".toList ||
     containsSub notes.toList "Enter your email".toList ||
     containsSub notes.toList "Click the".toList)

/-- First capture of `/AI Analysis \(\d+\/10\): (.+)/` against the notes:
scan for "AI Analysis (", one or more digits, "/10): ", then capture the
rest of the line (at least one character, stopping before a newline). -/
def extractAIMatch : List Char → Option (List Char)
  | [] => none
  | c :: rest =>
    match
      (match hasPre (c :: rest) "AI Analysis (".toList with
       | false => none
       | true =>
         let r1 := (c :: rest).drop "AI Analysis (".length
         let ds := r1.takeWhile Char.isDigit
         if ds.isEmpty then none
         else
           let r2 := r1.drop ds.length
           if hasPre r2 "/10): ".toList then
             let cap := (r2.drop "/10): ".length).takeWhile (fun ch => ch != '\n')
             if cap.isEmpty then none else some cap
           else none)
    with
    | some cap => some cap
    | none => extractAIMatch rest

/-- `RemovalEngine.applySpecialInstructions`: when the marker test passes,
compute the instruction text (the regex capture for AI-learned notes, the
raw notes otherwise) and, when non-empty, issue it as one action call. -/
def applySpecialInstructionsCalls (broker : Broker) : List Call :=
  if hasSpecialMarkers broker.notes then
    let instructions :=
      if containsSub broker.notes.toList "AI Analysis".toList then
        match extractAIMatch broker.notes.toList with
        | some cap => cap
        | none => []
      else broker.notes.toList
    if instructions.isEmpty then [] else [Call.instructionAct]
  else []

/-- `RemovalEngine.fillRemovalForm` followed by `handleCheckboxesAndTerms`:
the broad fill action, the field-verification probe, at most one corrective
fill action, then the checkbox and radio probes. -/
def fillRemovalFormCalls (o : Oracle) : List Call :=
  [Call.fillAct, Call.fieldExtract] ++
    (if o.fieldCheck.allFieldsFilled then [] else [Call.fillRetryAct]) ++
    [Call.checkboxExtract, Call.radioExtract]

/-- `RemovalEngine.submitRemovalForm`: corrective fill, readiness probe,
then either submit, or one checkbox-fix round and recheck before submitting,
or abort without submitting. -/
def submitRemovalFormCalls (o : Oracle) : List Call :=
  [Call.submitFillAct, Call.submitFormExtract] ++
    (if o.submitFormCheck.formReady then [Call.submitClickAct]
     else if !o.submitFormCheck.uncheckedCheckboxes.isEmpty then
       [Call.checkboxFixAct, Call.recheckExtract] ++
         (if o.submitRecheck.formReady then [Call.submitClickAct] else [])
     else [])

/-- Outcome of `RemovalEngine.verifySubmission`. -/
structure VerifyOutcome where
  success : Bool
  message : String
deriving DecidableEq, Repr

/-- `RemovalEngine.verifySubmission` (removal-engine.ts, lines 465-550):
error probe first; on no error indicators the success probe; on no success
text the still-on-form probe; otherwise the conservative default failure. -/
def verifySubmission (o : Oracle) : VerifyOutcome × List Call :=
  if o.errCheck.foundErrorIndicators then
    (⟨false, "Form errors detected: " ++ String.intercalate ", " o.errCheck.errorMessages⟩,
     [Call.errorExtract])
  else if o.succCheck.foundSuccessText then
    (⟨true, "Success confirmed: " ++ o.succCheck.successText⟩,
     [Call.errorExtract, Call.successExtract])
  else if o.stillFormCheck.stillOnForm || o.stillFormCheck.hasSubmitButton ||
      o.stillFormCheck.hasFormFields then
    (⟨false, "Still on form page - submission failed. Page type: " ++
        o.stillFormCheck.pageType⟩,
     [Call.errorExtract, Call.successExtract, Call.stillFormExtract])
  else
    (⟨false, "Unable to verify success - no clear success indicators found"⟩,
     [Call.errorExtract, Call.successExtract, Call.stillFormExtract])

/-- `broker.name.replace(/[^a-zA-Z0-9_-]/g, "_")`. -/
def sanitizeName (s : String) : String :=
  String.mk (s.toList.map (fun c =>
    if c.isAlphanum || c == '_' || c == '-' then c else '_'))

/-- The screenshot path the engine writes after the verify phase. -/
def screenshotFile (success : Bool) (broker : Broker) : String :=
  "screenshots/" ++ (if success then "success" else "failure") ++ "-" ++
    sanitizeName broker.name ++ ".png"

/-- The tail of the try block after any search/listing phase: the optional
instruction phase, form fill, submission, verification, the screenshot
attempt, and on failure with a saved screenshot the AI analysis. -/
def afterListingPhases (broker : Broker) (o : Oracle) (pre : List Call) :
    RemovalResult × List Call :=
  let v := (verifySubmission o).1
  let shot :=
    if o.screenshotOk then some (screenshotFile v.success broker)
    else some "failed_to_save"
  let calls := pre ++ applySpecialInstructionsCalls broker ++
    fillRemovalFormCalls o ++ submitRemovalFormCalls o ++
    (verifySubmission o).2 ++ [Call.screenshotCall]
  if v.success then
    (⟨broker.name, true, none, some v.message, shot, none⟩, calls)
  else if o.screenshotOk then
    (⟨broker.name, false, none, some v.message, shot,
        some (parseAnalysisResponse o.analysisResponse)⟩,
     calls ++ [Call.analysisCall])
  else
    (⟨broker.name, false, none, some v.message, shot, none⟩, calls)

/-- `RemovalEngine.removeFromBroker`: navigate (a throw lands in the catch
branch, which records the message and attempts a failure screenshot); then
the optional search/listing phases with their early listing-not-found exit;
then the remaining phases via `afterListingPhases`. -/
def removeFromBroker (broker : Broker) (user : User) (o : Oracle) :
    RemovalResult × List Call :=
  match o.navFailure with
  | some msg =>
    (⟨broker.name, false, some msg, none,
        some (if o.screenshotOk then "screenshots/failure-" ++ sanitizeName broker.name ++ ".png"
              else "failed_to_save"),
        none⟩,
     [Call.navigate, Call.screenshotCall])
  | none =>
    let needs := checkIfNeedsSearch o broker
    let pre := Call.navigate :: needs.2
    if needs.1 then
      let listing := findAndClickListing o
      let pre2 := pre ++ [Call.searchAct] ++ listing.2
      if listing.1 then afterListingPhases broker o pre2
      else
        (⟨broker.name, false, some "Could not find user listing", none, none, none⟩,
         pre2)
    else afterListingPhases broker o pre

/-- Which calls belong to the fill, consent, submit and verify phases. -/
def isLaterPhaseCall : Call → Bool
  | Call.fillAct | Call.fieldExtract | Call.fillRetryAct => true
  | Call.checkboxExtract | Call.radioExtract => true
  | Call.submitFillAct | Call.submitFormExtract | Call.checkboxFixAct
  | Call.recheckExtract | Call.submitClickAct => true
  | Call.errorExtract | Call.successExtract | Call.stillFormExtract => true
  | _ => false

/-- The value `checkIfNeedsSearch` returns for an oracle and broker. -/
def needsSearchVal (o : Oracle) (broker : Broker) : Bool :=
  o.searchCheck.needsSearchFirst || searchFirstBrokers.contains broker.name

/-- The value `findAndClickListing` returns: exact match found and clicked,
or the relaxed retry found and clicked a plausible listing. -/
def listingFoundVal (o : Oracle) : Bool :=
  (o.listingCheck.foundListing && o.listingCheck.clickedListing) ||
    (o.fallbackCheck.foundPossibleListing && o.fallbackCheck.clickedPossibleListing)

/-- The one terminal path that returns without attempting a screenshot:
navigation succeeded, the search phase was entered, and no listing was
found. -/
def listingNotFoundExit (broker : Broker) (o : Oracle) : Bool :=
  o.navFailure.isNone && needsSearchVal o broker && !listingFoundVal o

/-- An oracle identical to `o` except that the screenshot capture fails. -/
def withFailedScreenshot (o : Oracle) : Oracle :=
  { o with screenshotOk := false }

/-! ## collectUserInfo's per-field validators (cli.ts, lines 10-94) -/

/-- `input.trim() ? true : "... is required"`: the required-field validator
accepts exactly when the trimmed input is non-empty. -/
def vRequired (s : String) : Bool :=
  !(trimChars s.toList).isEmpty

/-- A character the email regex's `[^\s@]` class accepts. -/
def emailCharOk (c : Char) : Bool :=
  !isJsWs c && c != '@'

/-- The email validator `/^[^\s@]+@[^\s@]+\.[^\s@]+$/`: exactly one `@`,
a non-empty local part, and a domain part containing a dot that is neither
its first nor its last character; no whitespace anywhere. -/
def vEmail (s : String) : Bool :=
  match splitChar '@' s.toList with
  | [l, r] =>
    !l.isEmpty && l.all emailCharOk && r.all emailCharOk &&
      ((r.drop 1).dropLast.contains '.')
  | _ => false

/-- The state validator `/^[A-Z]{2}$/.test(input.toUpperCase())`. -/
def vState (s : String) : Bool :=
  let l := s.toList.map Char.toUpper
  l.length == 2 && l.all (fun c => 'A' ≤ c && c ≤ 'Z')

/-- The ZIP validator `/^\d{5}(-\d{4})?$/`. -/
def vZip (s : String) : Bool :=
  let l := s.toList
  (l.length == 5 && l.all Char.isDigit) ||
    (l.length == 10 && (l.take 5).all Char.isDigit && l.getD 5 ' ' == '-' &&
      (l.drop 6).all Char.isDigit)

/-- `input.replace(/[\s\-\(\)]/g, "")`: strip whitespace, dashes and
parentheses before the phone test. -/
def stripPhone (s : String) : List Char :=
  s.toList.filter (fun c => !(isJsWs c || c == '-' || c == '(' || c == ')'))

/-- `[1-9][\d]{0,15}` anchored at the end: a leading non-zero digit then at
most fifteen digits. -/
def phoneDigitsOk : List Char → Bool
  | [] => false
  | d :: ds => ('1' ≤ d && d ≤ '9') && ds.all Char.isDigit && decide (ds.length ≤ 15)

/-- The phone validator `/^[\+]?[1-9][\d]{0,15}$/` applied to the stripped
input. -/
def vPhone (s : String) : Bool :=
  match stripPhone s with
  | '+' :: rest => phoneDigitsOk rest
  | rest => phoneDigitsOk rest

/-- `/^\d{4}-\d{2}-\d{2}$/` plus reading the three numeric components. -/
def dobFormat (l : List Char) : Option (Nat × Nat × Nat) :=
  match l with
  | [y1, y2, y3, y4, '-', m1, m2, '-', d1, d2] =>
    if [y1, y2, y3, y4, m1, m2, d1, d2].all Char.isDigit then
      some (decVal [y1, y2, y3, y4], decVal [m1, m2], decVal [d1, d2])
    else none
  | _ => none

/-- Gregorian leap year, as `new Date` resolves February lengths. -/
def isLeapYear (y : Nat) : Bool :=
  (y % 4 == 0 && y % 100 != 0) || y % 400 == 0

/-- Days in a month, as `new Date` validates an ISO date string. -/
def daysInMonth (y m : Nat) : Nat :=
  if m == 2 then (if isLeapYear y then 29 else 28)
  else if m == 4 || m == 6 || m == 9 || m == 11 then 30
  else 31

/-- Whether `new Date("y-m-d")` yields a real date (otherwise Invalid Date,
whose comparisons are all false). -/
def validDate (y m d : Nat) : Bool :=
  1 ≤ m && m ≤ 12 && 1 ≤ d && d ≤ daysInMonth y m

/-- Order-preserving key of a calendar date. -/
def dateKey (y m d : Nat) : Nat :=
  y * 10000 + m * 100 + d

/-- The date-of-birth validator: format check, then
`if (date > today) reject; if (date < new Date("1900-01-01")) reject`.
An in-format but invalid calendar date compares as NaN, so both rejections
are skipped and the input is accepted.  `todayKey` is the current date. -/
def vDob (todayKey : Nat) (s : String) : Bool :=
  match dobFormat s.toList with
  | none => false
  | some (y, m, d) =>
    if validDate y m d then
      decide (dateKey y m d ≤ todayKey) && decide (19000101 ≤ dateKey y m d)
    else true

/-- The conjunction of all of `collectUserInfo`'s per-field validators: a
candidate record is accepted by the collection step exactly when every
prompt's validate function returns true. -/
def collectAccepts (todayKey : Nat) (u : User) : Bool :=
  vRequired u.firstName && vRequired u.lastName && vEmail u.email &&
    vRequired u.address && vRequired u.city && vState u.state &&
    vZip u.zip && vPhone u.phone && vDob todayKey u.dateOfBirth

/-! ## Declarative grammars (the spec's reading of the validators) -/

/-- A field is non-blank: some character of it is not whitespace. -/
def NonBlank (s : String) : Prop :=
  ∃ c ∈ s.toList, isJsWs c = false

/-- Declarative email-address grammar: local part, `@`, then a domain with
an interior dot; every part non-empty and free of whitespace and `@`. -/
def EmailGrammar (s : String) : Prop :=
  ∃ xs ys zs : List Char,
    s.toList = xs ++ '@' :: (ys ++ '.' :: zs) ∧
    xs ≠ [] ∧ ys ≠ [] ∧ zs ≠ [] ∧
    (∀ c ∈ xs, emailCharOk c = true) ∧
    (∀ c ∈ ys, emailCharOk c = true) ∧
    (∀ c ∈ zs, emailCharOk c = true)

/-- Declarative state grammar: exactly two letters. -/
def StateGrammar (s : String) : Prop :=
  s.toList.length = 2 ∧ ∀ c ∈ s.toList, c.isAlpha = true

/-- Declarative ZIP grammar: five digits, optionally followed by a dash and
four more digits. -/
def ZipGrammar (s : String) : Prop :=
  (s.toList.length = 5 ∧ ∀ c ∈ s.toList, c.isDigit = true) ∨
    (∃ a b : List Char, s.toList = a ++ '-' :: b ∧ a.length = 5 ∧ b.length = 4 ∧
      (∀ c ∈ a, c.isDigit = true) ∧ (∀ c ∈ b, c.isDigit = true))

/-- Declarative phone grammar: after stripping separators, an optional `+`,
a non-zero digit, and at most fifteen further digits. -/
def PhoneGrammar (s : String) : Prop :=
  ∃ (d : Char) (ds : List Char),
    (stripPhone s = d :: ds ∨ stripPhone s = '+' :: d :: ds) ∧
    '1' ≤ d ∧ d ≤ '9' ∧ (∀ c ∈ ds, c.isDigit = true) ∧ ds.length ≤ 15

/-- Declarative date-of-birth grammar: ISO `YYYY-MM-DD` shape, and when the
components form a real calendar date it lies between 1900-01-01 and today.
(An in-format impossible date is accepted: `new Date` yields NaN and both
range rejections are skipped.) -/
def DobGrammar (todayKey : Nat) (s : String) : Prop :=
  ∃ y m d : Nat, dobFormat s.toList = some (y, m, d) ∧
    (validDate y m d = true → 19000101 ≤ dateKey y m d ∧ dateKey y m d ≤ todayKey)

/-- The claim's acceptance condition as stated: required fields non-empty
(literally) and the five format fields match their grammars. -/
def UserSpecAsStated (todayKey : Nat) (u : User) : Prop :=
  u.firstName ≠ "" ∧ u.lastName ≠ "" ∧ u.address ≠ "" ∧ u.city ≠ "" ∧
    EmailGrammar u.email ∧ StateGrammar u.state ∧ ZipGrammar u.zip ∧
    PhoneGrammar u.phone ∧ DobGrammar todayKey u.dateOfBirth

/-- The acceptance condition with the one forced amendment: required fields
non-blank (non-empty after trimming) instead of merely non-empty. -/
def UserSpecAmended (todayKey : Nat) (u : User) : Prop :=
  NonBlank u.firstName ∧ NonBlank u.lastName ∧ NonBlank u.address ∧
    NonBlank u.city ∧ EmailGrammar u.email ∧ StateGrammar u.state ∧
    ZipGrammar u.zip ∧ PhoneGrammar u.phone ∧ DobGrammar todayKey u.dateOfBirth

/-! ## The session loop (index.ts main, lines 83-101) -/

/-- RemovalSession, as far as the loop writes it: the user snapshot and the
ordered results (timestamps are not modelled). -/
structure Session where
  user : User
  results : List RemovalResult
deriving DecidableEq, Repr

/-- One pass of main's broker loop: run the broker, push the result, then
rewrite the session file; the returned list is the sequence of file states
written, in order.  (`removeFromBroker` catches every fault internally and
always returns a result, so the loop's catch branch is unreachable.) -/
def mainLoop (user : User) : List (Broker × Oracle) → Session → List Session
  | [], _ => []
  | (b, o) :: rest, s =>
    let s' : Session := ⟨s.user, s.results ++ [(removeFromBroker b user o).1]⟩
    s' :: mainLoop user rest s'

/-- The sequence of session-file states a run over `brokers` writes. -/
def runWrites (user : User) (brokers : List (Broker × Oracle)) : List Session :=
  mainLoop user brokers ⟨user, []⟩

/-- The results of all attempts of a run, in processing order. -/
def allResults (user : User) (brokers : List (Broker × Oracle)) :
    List RemovalResult :=
  brokers.map (fun p => (removeFromBroker p.1 user p.2).1)

/-- An all-blank user record, used as a `getD` default. -/
def blankUser : User :=
  ⟨"", "", "", "", "", "", "", "", "", ""⟩

/-- The `getD` default session. -/
def blankSession : Session :=
  ⟨blankUser, []⟩

/-! ## Spec-side statement of the verify-phase classification (for the
refinement claim), and concrete fixtures used by closed theorems -/

/-- The spec's wording of the verify-phase classification, in strict
priority order: explicit failure phrases, then explicit success phrases,
then the still-on-form fallback, then the ambiguous default failure. -/
def verifySpecOutcome (o : Oracle) : VerifyOutcome :=
  if o.errCheck.foundErrorIndicators then
    ⟨false, "Form errors detected: " ++ String.intercalate ", " o.errCheck.errorMessages⟩
  else if o.succCheck.foundSuccessText then
    ⟨true, "Success confirmed: " ++ o.succCheck.successText⟩
  else if o.stillFormCheck.stillOnForm || o.stillFormCheck.hasSubmitButton ||
      o.stillFormCheck.hasFormFields then
    ⟨false, "Still on form page - submission failed. Page type: " ++
        o.stillFormCheck.pageType⟩
  else
    ⟨false, "Unable to verify success - no clear success indicators found"⟩

/-- A sample user record with every field valid. -/
def exUser : User :=
  ⟨"Jane", "Doe", "jane@example.com", "1 Main St", "Springfield", "CA",
   "12345", "5551234567", "1980-05-06", ""⟩

/-- The sample user with a whitespace-only first name: non-empty, but blank
after trimming. -/
def exUserBlankFirst : User :=
  ⟨" ", "Doe", "jane@example.com", "1 Main St", "Springfield", "CA",
   "12345", "5551234567", "1980-05-06", ""⟩

/-- A sample broker not on the search-first allow-list. -/
def exBroker : Broker :=
  ⟨"Acme Data", "https://acme.example", "https://acme.example/opt-out", false, ""⟩

/-- A second sample broker for multi-broker runs. -/
def exBroker2 : Broker :=
  ⟨"Data Villain", "https://villain.example", "https://villain.example/opt-out",
   true, ""⟩

/-- An oracle script for a clean success: no search needed, all fields
fill, the form submits, and the success probe fires. -/
def exOracleSuccess : Oracle :=
  ⟨none,
   ⟨false, true, "removal form", false⟩,
   ⟨false, "", false⟩,
   ⟨false, false⟩,
   ⟨true, [], ["name", "email"]⟩,
   ⟨false, false, 0, []⟩,
   ⟨false, false, 0⟩,
   ⟨true, [], [], "Submit"⟩,
   ⟨false, []⟩,
   ⟨false, [], false, false⟩,
   ⟨true, "Thank you, your request has been submitted", "Done", "Thanks"⟩,
   ⟨false, false, false, "confirmation"⟩,
   true,
   "Problem: none\nFix: none\nConfidence: 7"⟩

/-- An oracle script that requires search and then finds no listing, on
either the exact probe or the relaxed retry. -/
def exOracleListingFail : Oracle :=
  ⟨none,
   ⟨true, false, "search", true⟩,
   ⟨false, "", false⟩,
   ⟨false, false⟩,
   ⟨true, [], ["name", "email"]⟩,
   ⟨false, false, 0, []⟩,
   ⟨false, false, 0⟩,
   ⟨true, [], [], "Submit"⟩,
   ⟨false, []⟩,
   ⟨false, [], false, false⟩,
   ⟨false, "", "Results", "No matches"⟩,
   ⟨false, false, false, "search results"⟩,
   true,
   "Problem: listing\nFix: search differently\nConfidence: 7"⟩

/-- A high-confidence diagnosis, above the application threshold. -/
def exAnalysisHigh : FailureAnalysis :=
  ⟨"Consent box unchecked", "Click the consent checkbox", ["Click it"],
   "Click the consent checkbox before submitting", some 7⟩

/-- A low-confidence diagnosis, below the application threshold. -/
def exAnalysisLow : FailureAnalysis :=
  ⟨"Unclear", "Manual review required", [], "", some 3⟩

/-- A two-broker run script for session-persistence checks. -/
def exRun : List (Broker × Oracle) :=
  [(exBroker, exOracleSuccess), (exBroker2, exOracleListingFail)]

/-- Does a diagnosis carry a real confidence number inside [0, 10]?  (The
claim's reading of "the confidence score lies in the interval [0,10]".) -/
def confInRange (d : FailureAnalysis) : Bool :=
  match d.confidence with
  | some n => decide (0 ≤ n ∧ n ≤ 10)
  | none => false

/-! ## Helper lemmas: validators against their declarative grammars -/

theorem trimChars_eq_nil_iff (l : List Char) :
    trimChars l = [] ↔ ∀ c ∈ l, isJsWs c = true := by
  unfold trimChars
  rw [List.reverse_eq_nil_iff, List.dropWhile_eq_nil_iff]
  constructor
  · intro h c hc
    by_cases hw : isJsWs c = true
    · exact hw
    · exfalso
      have hmem : c ∈ l.dropWhile isJsWs := by
        have hsplit := List.takeWhile_append_dropWhile (p := isJsWs) (l := l)
        rw [← hsplit] at hc
        rcases List.mem_append.mp hc with h1 | h1
        · exact absurd (List.mem_takeWhile_imp h1) hw
        · exact h1
      exact hw (h c (List.mem_reverse.mpr hmem))
  · intro h c hc
    exact h c (List.dropWhile_subset isJsWs (List.mem_reverse.mp hc))

theorem vRequired_iff (s : String) : vRequired s = true ↔ NonBlank s := by
  unfold vRequired NonBlank
  rw [Bool.not_eq_true', List.isEmpty_eq_false]
  constructor
  · intro h
    by_contra hall
    push_neg at hall
    apply h
    rw [trimChars_eq_nil_iff]
    intro c hc
    cases hb : isJsWs c with
    | false => exact absurd hb (hall c hc)
    | true => rfl
  · rintro ⟨c, hc, hw⟩ hnil
    rw [trimChars_eq_nil_iff] at hnil
    rw [hnil c hc] at hw
    exact Bool.true_eq_false.mp hw

theorem toUpper_in_range_eq_isAlpha (c : Char) :
    (('A' ≤ c.toUpper && c.toUpper ≤ 'Z') : Bool) = c.isAlpha := by
  have hvt : c.val.toBitVec.toNat = c.toNat := rfl
  have eA : ('A' : Char).val.toBitVec.toNat = 65 := rfl
  have eZ : ('Z' : Char).val.toBitVec.toNat = 90 := rfl
  have e65 : ((65 : UInt32).toBitVec).toNat = 65 := rfl
  have e90 : ((90 : UInt32).toBitVec).toNat = 90 := rfl
  have e97 : ((97 : UInt32).toBitVec).toNat = 97 := rfl
  have e122 : ((122 : UInt32).toBitVec).toNat = 122 := rfl
  simp only [Char.toUpper, Char.isAlpha, Char.isLower, Char.isUpper]
  split
  · rename_i h
    have hval : (Char.ofNat (c.toNat - 32)).val.toBitVec.toNat = c.toNat - 32 := by
      have hvalid : (c.toNat - 32).isValidChar := by
        left
        omega
      simp [Char.ofNat, hvalid, Char.ofNatAux, UInt32.toNat, BitVec.toNat_ofNatLt]
    rw [Bool.eq_iff_iff]
    simp only [Bool.and_eq_true, Bool.or_eq_true, decide_eq_true_eq,
      Char.le_def, UInt32.le_def, BitVec.le_def, hval, hvt, ge_iff_le,
      eA, eZ, e65, e90, e97, e122]
    constructor
    · intro
      right
      constructor <;> omega
    · intro
      constructor <;> omega
  · rename_i h
    rw [Bool.eq_iff_iff]
    simp only [Bool.and_eq_true, Bool.or_eq_true, decide_eq_true_eq,
      Char.le_def, UInt32.le_def, BitVec.le_def, hvt, ge_iff_le,
      eA, eZ, e65, e90, e97, e122]
    rw [Decidable.not_and_iff_or_not] at h
    simp only [not_le, ge_iff_le] at h
    constructor
    · intro hh
      left
      constructor <;> omega
    · intro hh
      rcases hh with h1 | h1
      · constructor <;> omega
      · exfalso
        rcases h with h2 | h2 <;> omega

theorem isAlpha_iff_toUpper (c : Char) :
    c.isAlpha = true ↔ ('A' ≤ c.toUpper ∧ c.toUpper ≤ 'Z') := by
  rw [← toUpper_in_range_eq_isAlpha]
  simp [Bool.and_eq_true, decide_eq_true_eq]

theorem vState_iff (s : String) : vState s = true ↔ StateGrammar s := by
  unfold vState StateGrammar
  simp only [List.length_map, Bool.and_eq_true, beq_iff_eq, List.all_eq_true,
    List.mem_map, decide_eq_true_eq, forall_exists_index, and_imp]
  constructor
  · rintro ⟨h2, hall⟩
    refine ⟨h2, fun c hc => ?_⟩
    rw [isAlpha_iff_toUpper]
    exact hall (Char.toUpper c) c hc rfl
  · rintro ⟨h2, hall⟩
    refine ⟨h2, fun d c hc hd => ?_⟩
    subst hd
    exact (isAlpha_iff_toUpper c).mp (hall c hc)

theorem vZip_iff (s : String) : vZip s = true ↔ ZipGrammar s := by
  unfold vZip ZipGrammar
  simp only [Bool.or_eq_true, Bool.and_eq_true, beq_iff_eq, List.all_eq_true]
  constructor
  · rintro (⟨h5, hall⟩ | ⟨⟨⟨h10, htake⟩, hdash⟩, hdrop⟩)
    · exact Or.inl ⟨h5, hall⟩
    · right
      refine ⟨s.toList.take 5, s.toList.drop 6, ?_, ?_, ?_, fun c hc => htake c hc,
        fun c hc => hdrop c hc⟩
      · have h56 : s.toList.drop 5 = s.toList.getD 5 ' ' :: s.toList.drop 6 := by
          rw [List.getD_eq_getElem?_getD, List.getElem?_eq_getElem (by omega)]
          simp only [Option.getD_some]
          exact List.drop_eq_getElem_cons (by omega)
        rw [hdash] at h56
        calc s.toList = s.toList.take 5 ++ s.toList.drop 5 :=
              (List.take_append_drop 5 s.toList).symm
          _ = s.toList.take 5 ++ '-' :: s.toList.drop 6 := by rw [h56]
      · have hsl : s.length = s.toList.length := rfl
        simp [List.length_take]
        omega
      · have hsl : s.length = s.toList.length := rfl
        simp [List.length_drop]
        omega
  · rintro (⟨h5, hall⟩ | ⟨a, b, heq, ha5, hb4, hda, hdb⟩)
    · exact Or.inl ⟨h5, hall⟩
    · right
      have hlen : s.toList.length = 10 := by
        rw [heq]
        simp [ha5, hb4]
      refine ⟨⟨⟨hlen, ?_⟩, ?_⟩, ?_⟩
      · intro c hc
        have hta : s.toList.take 5 = a := by
          rw [heq, ← ha5, List.take_left]
        rw [hta] at hc
        exact hda c hc
      · rw [heq, List.getD_eq_getElem?_getD, List.getElem?_append_right (by omega)]
        simp [ha5]
      · intro c hc
        have htb : s.toList.drop 6 = b := by
          rw [heq]
          have h6 : 6 = a.length + 1 := by omega
          rw [h6, ← List.drop_drop, List.drop_left]
          simp
        rw [htb] at hc
        exact hdb c hc

theorem phoneDigitsOk_iff (l : List Char) :
    phoneDigitsOk l = true ↔
      ∃ d ds, l = d :: ds ∧ '1' ≤ d ∧ d ≤ '9' ∧
        (∀ c ∈ ds, c.isDigit = true) ∧ ds.length ≤ 15 := by
  cases l with
  | nil =>
    simp [phoneDigitsOk]
  | cons d ds =>
    simp only [phoneDigitsOk, Bool.and_eq_true, decide_eq_true_eq, List.all_eq_true]
    constructor
    · rintro ⟨⟨⟨h1, h9⟩, hds⟩, hlen⟩
      exact ⟨d, ds, rfl, h1, h9, hds, hlen⟩
    · rintro ⟨d', ds', heq, h1, h9, hds, hlen⟩
      cases heq
      exact ⟨⟨⟨h1, h9⟩, hds⟩, hlen⟩

theorem vPhone_iff (s : String) : vPhone s = true ↔ PhoneGrammar s := by
  unfold vPhone PhoneGrammar
  split
  · rename_i rest heq
    rw [phoneDigitsOk_iff]
    constructor
    · rintro ⟨d, ds, hrest, h1, h9, hds, hlen⟩
      exact ⟨d, ds, Or.inr (by rw [heq, hrest]), h1, h9, hds, hlen⟩
    · rintro ⟨d, ds, hdis | hdis, h1, h9, hds, hlen⟩
      · exfalso
        rw [heq] at hdis
        injection hdis with hd hds'
        subst hd
        exact absurd h1 (by decide)
      · rw [heq] at hdis
        injection hdis with hd hds'
        exact ⟨d, ds, hds', h1, h9, hds, hlen⟩
  · rename_i rest hne
    rw [phoneDigitsOk_iff]
    constructor
    · rintro ⟨d, ds, hrest, h1, h9, hds, hlen⟩
      exact ⟨d, ds, Or.inl hrest, h1, h9, hds, hlen⟩
    · rintro ⟨d, ds, hdis | hdis, h1, h9, hds, hlen⟩
      · exact ⟨d, ds, hdis, h1, h9, hds, hlen⟩
      · exact absurd hdis (fun hh => hne (d :: ds) hh)

theorem vDob_iff (tk : Nat) (s : String) : vDob tk s = true ↔ DobGrammar tk s := by
  unfold vDob DobGrammar
  simp only [String.toList]
  split
  · rename_i heq
    constructor
    · intro h
      exact absurd h (by decide)
    · rintro ⟨y, m, d, heq', _⟩
      rw [heq] at heq'
      cases heq'
  · rename_i x y m d heq
    constructor
    · intro h
      refine ⟨y, m, d, heq, fun hv => ?_⟩
      rw [hv, if_pos rfl] at h
      simp only [Bool.and_eq_true, decide_eq_true_eq] at h
      exact ⟨h.2, h.1⟩
    · rintro ⟨y', m', d', heq', himp⟩
      rw [heq] at heq'
      injection heq' with hp
      rw [Prod.mk.injEq] at hp
      obtain ⟨hy, hmd⟩ := hp
      rw [Prod.mk.injEq] at hmd
      obtain ⟨hm, hd⟩ := hmd
      subst hy
      subst hm
      subst hd
      cases hv : validDate y m d with
      | true =>
        rw [if_pos rfl]
        simp only [Bool.and_eq_true, decide_eq_true_eq]
        have hr := himp hv
        exact ⟨hr.2, hr.1⟩
      | false =>
        rw [if_neg (by decide)]

theorem splitChar_cons_eq (c h : Char) (t cur : List Char) (rest : List (List Char))
    (hsp : splitChar c t = cur :: rest) :
    splitChar c (h :: t) =
      if (h == c) = true then [] :: cur :: rest else (h :: cur) :: rest := by
  unfold splitChar
  rw [hsp]

theorem splitChar_ne_nil (c : Char) (l : List Char) : splitChar c l ≠ [] := by
  cases l with
  | nil => simp [splitChar]
  | cons h t =>
    cases hsp : splitChar c t with
    | nil =>
      unfold splitChar
      rw [hsp]
      simp
    | cons cur rest =>
      rw [splitChar_cons_eq c h t cur rest hsp]
      by_cases hc : (h == c) = true
      · simp [hc]
      · simp [hc]

theorem splitChar_of_not_mem {c : Char} {l : List Char} (h : c ∉ l) :
    splitChar c l = [l] := by
  induction l with
  | nil => rfl
  | cons a t ih =>
    have ha : (a == c) = false := by
      rw [beq_eq_false_iff_ne]
      intro hac
      exact h (hac ▸ List.mem_cons_self a t)
    have ht : c ∉ t := fun hm => h (List.mem_cons_of_mem a hm)
    rw [splitChar_cons_eq c a t t [] (ih ht), ha]
    simp

theorem splitChar_sep_cons {c : Char} {a : List Char} (b : List Char) (ha : c ∉ a) :
    splitChar c (a ++ c :: b) = a :: splitChar c b := by
  induction a with
  | nil =>
    cases hsp : splitChar c b with
    | nil => exact absurd hsp (splitChar_ne_nil c b)
    | cons cur rest =>
      simp only [List.nil_append]
      rw [splitChar_cons_eq c c b cur rest hsp]
      simp [hsp]
  | cons x xs ih =>
    have hx : (x == c) = false := by
      rw [beq_eq_false_iff_ne]
      intro hxc
      exact ha (hxc ▸ List.mem_cons_self x xs)
    have hxs : c ∉ xs := fun hm => ha (List.mem_cons_of_mem x hm)
    have ihr := ih hxs
    cases hsp : splitChar c b with
    | nil => exact absurd hsp (splitChar_ne_nil c b)
    | cons cur rest =>
      rw [hsp] at ihr
      simp only [List.cons_append]
      rw [splitChar_cons_eq c x (xs ++ c :: b) xs (cur :: rest) ihr, hx]
      simp [hsp]

theorem joinSep_splitChar (c : Char) (l : List Char) :
    joinSep c (splitChar c l) = l := by
  induction l with
  | nil => rfl
  | cons h t ih =>
    cases hsp : splitChar c t with
    | nil => exact absurd hsp (splitChar_ne_nil c t)
    | cons cur rest =>
      rw [hsp] at ih
      rw [splitChar_cons_eq c h t cur rest hsp]
      by_cases hc : (h == c) = true
      · rw [if_pos hc]
        have hj : joinSep c ([] :: cur :: rest) = c :: joinSep c (cur :: rest) := rfl
        rw [hj, ih]
        rw [beq_iff_eq.mp hc]
      · rw [if_neg hc]
        cases rest with
        | nil =>
          have hj : joinSep c [h :: cur] = h :: cur := rfl
          rw [hj]
          have hcur : joinSep c [cur] = cur := rfl
          rw [hcur] at ih
          rw [ih]
        | cons r2 rs =>
          have hj : joinSep c ((h :: cur) :: r2 :: rs) =
              (h :: cur) ++ c :: joinSep c (r2 :: rs) := rfl
          rw [hj]
          have h2 : joinSep c (cur :: r2 :: rs) = cur ++ c :: joinSep c (r2 :: rs) := rfl
          rw [h2] at ih
          rw [List.cons_append, ih]

theorem splitChar_parts (c : Char) (l : List Char) :
    ∀ p ∈ splitChar c l, c ∉ p := by
  induction l with
  | nil =>
    intro p hp
    simp [splitChar] at hp
    simp [hp]
  | cons h t ih =>
    intro p hp
    cases hsp : splitChar c t with
    | nil => exact absurd hsp (splitChar_ne_nil c t)
    | cons cur rest =>
      rw [splitChar_cons_eq c h t cur rest hsp] at hp
      by_cases hc : (h == c) = true
      · rw [if_pos hc] at hp
        rcases List.mem_cons.mp hp with h1 | h1
        · simp [h1]
        · exact ih p (hsp ▸ h1)
      · rw [if_neg hc] at hp
        rcases List.mem_cons.mp hp with h1 | h1
        · subst h1
          intro hm
          rcases List.mem_cons.mp hm with h2 | h2
          · exact hc (beq_iff_eq.mpr h2.symm)
          · exact ih cur (hsp ▸ List.mem_cons_self cur rest) h2
        · exact ih p (hsp ▸ List.mem_cons_of_mem cur h1)

theorem interiorDot_iff (r : List Char) :
    ((r.drop 1).dropLast.contains '.') = true ↔
      ∃ ys zs : List Char, r = ys ++ '.' :: zs ∧ ys ≠ [] ∧ zs ≠ [] := by
  constructor
  · intro h
    have hmem : '.' ∈ (r.drop 1).dropLast := by
      simpa using h
    cases r with
    | nil => simp at hmem
    | cons x xs =>
      simp only [List.drop_succ_cons, List.drop_zero] at hmem
      have hxs : xs ≠ [] := by
        intro hn
        rw [hn] at hmem
        simp at hmem
      obtain ⟨u, v, huv⟩ := List.append_of_mem hmem
      have hxs_eq : xs = xs.dropLast ++ [xs.getLast hxs] := (List.dropLast_concat_getLast hxs).symm
      refine ⟨x :: u, v ++ [xs.getLast hxs], ?_, by simp, by simp⟩
      rw [List.cons_append]
      congr 1
      calc xs = xs.dropLast ++ [xs.getLast hxs] := hxs_eq
        _ = (u ++ '.' :: v) ++ [xs.getLast hxs] := by rw [huv]
        _ = u ++ '.' :: (v ++ [xs.getLast hxs]) := by simp
  · rintro ⟨ys, zs, heq, hys, hzs⟩
    cases ys with
    | nil => exact absurd rfl hys
    | cons y ytl =>
      subst heq
      simp only [List.cons_append, List.drop_succ_cons, List.drop_zero]
      rw [List.dropLast_append_cons]
      rw [List.dropLast_cons_of_ne_nil hzs]
      simp

theorem vEmail_iff (s : String) : vEmail s = true ↔ EmailGrammar s := by
  unfold vEmail EmailGrammar
  constructor
  · intro h
    split at h
    · rename_i l r hsp
      simp only [Bool.and_eq_true, Bool.not_eq_true', List.isEmpty_eq_false,
        List.all_eq_true] at h
      obtain ⟨⟨⟨hl, hlok⟩, hrok⟩, hdot⟩ := h
      have hL : s.toList = l ++ '@' :: r := by
        have := joinSep_splitChar '@' s.toList
        rw [hsp] at this
        have hj : joinSep '@' [l, r] = l ++ '@' :: r := by
          have h1 : joinSep '@' [l, r] = l ++ '@' :: joinSep '@' [r] := rfl
          rw [h1]
          rfl
        rw [hj] at this
        exact this.symm
      obtain ⟨ys, zs, hr, hys, hzs⟩ := (interiorDot_iff r).mp hdot
      refine ⟨l, ys, zs, ?_, ?_, hys, hzs, ?_, ?_, ?_⟩
      · rw [hL, hr]
      · intro hln
        rw [hln] at hl
        exact hl rfl
      · exact fun c hc => hlok c hc
      · intro c hc
        exact hrok c (by rw [hr]; exact List.mem_append_left _ hc)
      · intro c hc
        exact hrok c (by rw [hr]; exact List.mem_append_right _ (List.mem_cons_of_mem _ hc))
    · exact absurd h (by simp)
  · rintro ⟨xs, ys, zs, heq, hxs, hys, hzs, hxok, hyok, hzok⟩
    have hnx : '@' ∉ xs := by
      intro hm
      have := hxok '@' hm
      simp [emailCharOk] at this
    have hnr : '@' ∉ ys ++ '.' :: zs := by
      intro hm
      rcases List.mem_append.mp hm with h1 | h1
      · have := hyok '@' h1
        simp [emailCharOk] at this
      · rcases List.mem_cons.mp h1 with h2 | h2
        · exact absurd h2.symm (by decide)
        · have := hzok '@' h2
          simp [emailCharOk] at this
    have hsp : splitChar '@' s.toList = [xs, ys ++ '.' :: zs] := by
      rw [heq, splitChar_sep_cons _ hnx, splitChar_of_not_mem hnr]
    rw [hsp]
    simp only [Bool.and_eq_true, Bool.not_eq_true', List.isEmpty_eq_false,
      List.all_eq_true]
    refine ⟨⟨⟨hxs, fun c hc => hxok c hc⟩, ?_⟩, ?_⟩
    · intro c hc
      rcases List.mem_append.mp hc with h1 | h1
      · exact hyok c h1
      · rcases List.mem_cons.mp h1 with h2 | h2
        · subst h2
          rfl
        · exact hzok c h2
    · exact (interiorDot_iff _).mpr ⟨ys, zs, rfl, hys, hzs⟩

/-! ## Theorems for the analyzer claims -/

theorem parseStep_conf_bounds (st : ParseSt) (line : List Char)
    (h : ∀ m : Int, st.conf = some m → 0 ≤ m ∧ m ≤ 10) :
    ∀ m : Int, (parseStep st line).conf = some m → 0 ≤ m ∧ m ≤ 10 := by
  intro m hm
  unfold parseStep at hm
  split at hm
  · exact h m hm
  · split at hm
    · exact h m hm
    · split at hm
      · exact h m hm
      · split at hm
        · have hm' : clampConf (jsParseInt (confArg line)) = some m := hm
          unfold clampConf at hm'
          cases hj : jsParseInt (confArg line) with
          | none =>
            rw [hj] at hm'
            simp at hm'
          | some k =>
            rw [hj] at hm'
            simp only [Option.map_some'] at hm'
            injection hm' with hk
            constructor <;> omega
        · exact h m hm

theorem parseFold_conf_bounds (lines : List (List Char)) :
    ∀ st : ParseSt, (∀ m : Int, st.conf = some m → 0 ≤ m ∧ m ≤ 10) →
      ∀ m : Int, (lines.foldl parseStep st).conf = some m → 0 ≤ m ∧ m ≤ 10 := by
  induction lines with
  | nil => intro st hst; exact hst
  | cons l ls ih => intro st hst; exact ih _ (parseStep_conf_bounds st l hst)

/-- Claim C5 (amended): every confidence that is an actual number lies in
[0,10] -- the default is 5 and parsed values are clamped to [1,10] -- and the
analysis-failed placeholder carries confidence 0.  (As stated the claim fails:
a labeled confidence line whose value text does not parse as a number, such as
"Confidence: high", makes `parseInt` return NaN, which the Math.max/Math.min
clamp propagates, so the confidence is NaN and lies in no interval.) -/
theorem parse_confidence_bounds :
    (∀ (r : String) (n : Int), (parseAnalysisResponse r).confidence = some n →
      0 ≤ n ∧ n ≤ 10) ∧
    analysisFailedPlaceholder.confidence = some 0 := by
  constructor
  · intro r n h
    have h0 : ∀ m : Int, (⟨[], [], [], some 5⟩ : ParseSt).conf = some m →
        0 ≤ m ∧ m ≤ 10 := by
      intro m hm
      injection hm with h5
      omega
    exact parseFold_conf_bounds (splitChar '\n' r.toList) ⟨[], [], [], some 5⟩ h0 n h
  · rfl

/-- Claim C5, counterexample: for the oracle response "Confidence: high" the
parsed diagnosis confidence is NaN (modelled `none`), not a number in [0,10]. -/
theorem parse_confidence_nan_cex :
    confInRange (parseAnalysisResponse "Confidence: high") = false := by decide

/-- Claim C5, witness: "Confidence: 12" parses, is clamped to 10, and 10 lies
in [0,10] by the theorem. -/
theorem parse_confidence_bounds_witness :
    (parseAnalysisResponse "Confidence: 12").confidence = some 10 ∧
      0 ≤ (10 : Int) ∧ (10 : Int) ≤ 10 :=
  ⟨by decide, parse_confidence_bounds.1 "Confidence: 12" 10 (by decide)⟩

/-- Claim C9: on the non-exceptional parse path the diagnosis's
specialInstructions field always equals its suggestedFix field, so the
instructions replayed later are never anything but the parsed (or placeholder)
fix text. -/
theorem specialInstructions_eq_suggestedFix (r : String) :
    (parseAnalysisResponse r).specialInstructions =
      (parseAnalysisResponse r).suggestedFix := rfl

theorem parseStep_unlabeled (st : ParseSt) (line : List Char)
    (h : isLabeledLine line = false) : parseStep st line = st := by
  unfold isLabeledLine at h
  simp only [Bool.or_eq_false_iff] at h
  obtain ⟨⟨⟨⟨⟨⟨h1, h2⟩, h3⟩, h4⟩, h5⟩, h6⟩, h7⟩ := h
  unfold parseStep
  rw [h1, h2, h3, h4, h5, h6, h7]
  simp

theorem parseFold_unlabeled (lines : List (List Char)) :
    ∀ st : ParseSt, (∀ l ∈ lines, isLabeledLine l = false) →
      lines.foldl parseStep st = st := by
  induction lines with
  | nil => intro st _; rfl
  | cons l ls ih =>
    intro st hall
    have hl : isLabeledLine l = false := hall l (List.mem_cons_self l ls)
    have hls : ∀ x ∈ ls, isLabeledLine x = false :=
      fun x hx => hall x (List.mem_cons_of_mem l hx)
    simp only [List.foldl_cons, parseStep_unlabeled st l hl]
    exact ih st hls

/-- Claim C6 (amended): when no line of the response matches any labeled
field probe, the fix and specialInstructions default to "Manual review
required", the steps to [], the problem to the first 200 characters of the
response followed by "...", and the confidence stays at its default 5.  (As
stated the claim fails: the no-label default confidence is 5, not 0, and the
problem field defaults to a response prefix, not a fixed placeholder.) -/
theorem parse_unlabeled_default (r : String) (h : hasLabeledLine r = false) :
    parseAnalysisResponse r =
      ⟨String.mk (r.toList.take 200 ++ "...".toList), "Manual review required", [],
       "Manual review required", some 5⟩ := by
  unfold hasLabeledLine at h
  simp only [List.any_eq_false, Bool.not_eq_true] at h
  unfold parseAnalysisResponse
  rw [parseFold_unlabeled (splitChar '\n' r.toList) ⟨[], [], [], some 5⟩ h]
  rfl

/-- Claim C6, counterexample: "hello" contains no labeled line, yet the
resulting diagnosis has confidence 5, not the claimed 0. -/
theorem parse_unlabeled_cex :
    hasLabeledLine "hello" = false ∧
      (parseAnalysisResponse "hello").confidence ≠ some 0 := by decide

/-- Claim C6, witness: the amended default diagnosis, evaluated at the
concrete response "hello". -/
theorem parse_unlabeled_witness :
    parseAnalysisResponse "hello" =
      ⟨"hello...", "Manual review required", [], "Manual review required", some 5⟩ := by
  have h := parse_unlabeled_default "hello" (by decide)
  exact h.trans (by decide)

/-- Claim C1: for every combination of simulated oracle responses the
submission-verification step classifies the outcome in strict priority order:
error indicators give Failure with "Form errors detected: " plus the joined
error texts; otherwise a success phrase gives Success with "Success
confirmed: " plus the matched text; otherwise a still-on-form report (still on
form, submit button, or form fields visible) gives Failure with the "Still on
form page" message; otherwise Failure with "Unable to verify success - no
clear success indicators found". -/
theorem verifySubmission_classification (o : Oracle) :
    (verifySubmission o).1 = verifySpecOutcome o := by
  unfold verifySubmission verifySpecOutcome
  cases h1 : o.errCheck.foundErrorIndicators <;>
    cases h2 : o.succCheck.foundSuccessText <;>
      cases h3 : o.stillFormCheck.stillOnForm <;>
        cases h4 : o.stillFormCheck.hasSubmitButton <;>
          cases h5 : o.stillFormCheck.hasFormFields <;>
            simp [h1, h2, h3, h4, h5]

theorem notesAppend_ne (x y z : String) :
    x ++ "\n\nAI Analysis (" ++ y ++ "/10): " ++ z ≠ x := by
  intro heq
  have hlen := congrArg String.length heq
  have h15 : ("\n\nAI Analysis (" : String).length = 15 := by decide
  simp only [String.length_append, h15] at hlen
  omega

/-- Claim C4: applying a diagnosis rewrites the broker's notes (appending
the analysis annotation) and invokes the catalog save exactly when the
confidence is at least 6 (JS `>=`, false on NaN); otherwise the broker and
the stored catalog are left completely unchanged and no save is invoked. -/
theorem updateBroker_threshold (b : Broker) (a : FailureAnalysis) (cat : List Broker) :
    (((updateBrokerWithAnalysis b a cat).1.notes ≠ b.notes) ↔
        jsGe a.confidence 6 = true) ∧
    (jsGe a.confidence 6 = true →
      (updateBrokerWithAnalysis b a cat).1.notes =
        b.notes ++ "\n\nAI Analysis (" ++ numStr a.confidence ++ "/10): " ++
          a.specialInstructions ∧
      (updateBrokerWithAnalysis b a cat).2.2 = true) ∧
    (jsGe a.confidence 6 = false →
      (updateBrokerWithAnalysis b a cat).1 = b ∧
      (updateBrokerWithAnalysis b a cat).2.1 = cat ∧
      (updateBrokerWithAnalysis b a cat).2.2 = false) := by
  cases hge : jsGe a.confidence 6 with
  | false =>
    unfold updateBrokerWithAnalysis
    rw [hge]
    simp
  | true =>
    unfold updateBrokerWithAnalysis
    rw [hge]
    simp only [if_pos rfl]
    refine ⟨?_, ?_, ?_⟩
    · constructor
      · intro _
        trivial
      · intro _
        exact notesAppend_ne b.notes (numStr a.confidence) a.specialInstructions
    · intro _
      exact ⟨rfl, rfl⟩
    · intro hfalse
      cases hfalse

/-- Claim C4, witness: a confidence-7 diagnosis changes the notes; a
confidence-3 diagnosis leaves broker and catalog untouched. -/
theorem updateBroker_threshold_witness :
    ((updateBrokerWithAnalysis exBroker exAnalysisHigh [exBroker]).1.notes ≠
        exBroker.notes) ∧
      ((updateBrokerWithAnalysis exBroker exAnalysisLow [exBroker]).1 = exBroker ∧
        (updateBrokerWithAnalysis exBroker exAnalysisLow [exBroker]).2.1 = [exBroker] ∧
        (updateBrokerWithAnalysis exBroker exAnalysisLow [exBroker]).2.2 = false) :=
  ⟨(updateBroker_threshold exBroker exAnalysisHigh [exBroker]).1.mpr (by decide),
   (updateBroker_threshold exBroker exAnalysisLow [exBroker]).2.2 (by decide)⟩

/-- Claim C10: when the updated broker's name matches no catalog entry,
persisting it performs no write and leaves the catalog unchanged: no entry is
added, replaced or removed. -/
theorem saveUpdatedBroker_no_entry (nb : Broker) (cat : List Broker)
    (h : ∀ b ∈ cat, (b.name == nb.name) = false) :
    saveUpdatedBroker nb cat = (cat, false) := by
  unfold saveUpdatedBroker
  have hidx : cat.findIdx? (fun b => b.name == nb.name) = none := by
    rw [List.findIdx?_eq_none_iff]
    exact h
  rw [hidx]

/-- Claim C10, witness: saving a broker into a catalog that only holds a
differently-named broker changes nothing and writes nothing. -/
theorem saveUpdatedBroker_no_entry_witness :
    saveUpdatedBroker exBroker [exBroker2] = ([exBroker2], false) :=
  saveUpdatedBroker_no_entry exBroker [exBroker2] (by decide)

/-- Claim C7 (amended): the collection step accepts a candidate user record
exactly when every required field is non-blank (non-empty after trimming
whitespace) and the email, state, ZIP, phone and date-of-birth fields match
their declarative grammars; in particular a well-formed date of birth after
today or before 1900-01-01 is rejected.  (As stated the claim fails: a
required field consisting only of whitespace is non-empty yet rejected.) -/
theorem collectAccepts_iff_grammar (todayKey : Nat) (u : User) :
    collectAccepts todayKey u = true ↔ UserSpecAmended todayKey u := by
  unfold collectAccepts UserSpecAmended
  simp only [Bool.and_eq_true]
  rw [vRequired_iff, vRequired_iff, vRequired_iff, vRequired_iff,
    vEmail_iff, vState_iff, vZip_iff, vPhone_iff, vDob_iff]
  tauto

/-- Claim C7, counterexample: a record whose first name is a single space
satisfies the claim's stated acceptance condition (all required fields
non-empty, all grammars matched) yet validation rejects it. -/
theorem collectAccepts_cex :
    collectAccepts 20261012 exUserBlankFirst = false ∧
      UserSpecAsStated 20261012 exUserBlankFirst := by
  constructor
  · decide
  · refine ⟨by decide, by decide, by decide, by decide, ?_, ?_, ?_, ?_, ?_⟩
    · exact ⟨"jane".toList, "example".toList, "com".toList, by decide, by decide,
        by decide, by decide, by decide, by decide, by decide⟩
    · constructor
      · decide
      · decide
    · exact Or.inl ⟨by decide, by decide⟩
    · exact ⟨'5', "551234567".toList, Or.inl (by decide), by decide, by decide,
        by decide, by decide⟩
    · exact ⟨1980, 5, 6, by decide, by decide⟩

/-- Claim C7, witness: a fully valid record is accepted, via the amended
equivalence. -/
theorem collectAccepts_witness : collectAccepts 20261012 exUser = true := by
  apply (collectAccepts_iff_grammar 20261012 exUser).mpr
  refine ⟨⟨'J', by decide, by decide⟩, ⟨'D', by decide, by decide⟩,
    ⟨'1', by decide, by decide⟩, ⟨'S', by decide, by decide⟩, ?_, ?_, ?_, ?_, ?_⟩
  · exact ⟨"jane".toList, "example".toList, "com".toList, by decide, by decide,
      by decide, by decide, by decide, by decide, by decide⟩
  · constructor
    · decide
    · decide
  · exact Or.inl ⟨by decide, by decide⟩
  · exact ⟨'5', "551234567".toList, Or.inl (by decide), by decide, by decide,
      by decide, by decide⟩
  · exact ⟨1980, 5, 6, by decide, by decide⟩

theorem instr_no_snap (b : Broker) :
    (applySpecialInstructionsCalls b).count Call.screenshotCall = 0 := by
  unfold applySpecialInstructionsCalls
  dsimp only
  repeat' split
  all_goals rfl

theorem fill_no_snap (o : Oracle) :
    (fillRemovalFormCalls o).count Call.screenshotCall = 0 := by
  unfold fillRemovalFormCalls
  repeat' split
  all_goals rfl

theorem submit_no_snap (o : Oracle) :
    (submitRemovalFormCalls o).count Call.screenshotCall = 0 := by
  unfold submitRemovalFormCalls
  repeat' split
  all_goals rfl

theorem verify_no_snap (o : Oracle) :
    (verifySubmission o).2.count Call.screenshotCall = 0 := by
  unfold verifySubmission
  repeat' split
  all_goals rfl

theorem listing_no_snap (o : Oracle) :
    (findAndClickListing o).2.count Call.screenshotCall = 0 := by
  unfold findAndClickListing
  repeat' split
  all_goals rfl

theorem afterListing_result (b : Broker) (o : Oracle) (pre : List Call) :
    (afterListingPhases b o pre).1.success = (verifySubmission o).1.success ∧
    (afterListingPhases b o pre).1.error = none ∧
    (afterListingPhases b o pre).1.details = some (verifySubmission o).1.message := by
  unfold afterListingPhases
  cases hs : (verifySubmission o).1.success <;> cases hok : o.screenshotOk <;>
    simp [hs, hok]

theorem afterListing_snap_count (b : Broker) (o : Oracle) (pre : List Call) :
    (afterListingPhases b o pre).2.count Call.screenshotCall =
      pre.count Call.screenshotCall + 1 := by
  unfold afterListingPhases
  cases hs : (verifySubmission o).1.success <;> cases hok : o.screenshotOk <;>
    simp [hs, hok, List.count_append, instr_no_snap, fill_no_snap, submit_no_snap,
      verify_no_snap, List.count_cons, List.count_nil]

theorem removeFromBroker_nav_fail (b : Broker) (u : User) (o : Oracle) (msg : String)
    (h : o.navFailure = some msg) :
    removeFromBroker b u o =
      (⟨b.name, false, some msg, none,
          some (if o.screenshotOk then
                  "screenshots/failure-" ++ sanitizeName b.name ++ ".png"
                else "failed_to_save"),
          none⟩,
       [Call.navigate, Call.screenshotCall]) := by
  unfold removeFromBroker
  rw [h]

theorem findAndClickListing_fail_val (o : Oracle)
    (h3a : (o.listingCheck.foundListing && o.listingCheck.clickedListing) = false)
    (h3b : (o.fallbackCheck.foundPossibleListing &&
        o.fallbackCheck.clickedPossibleListing) = false) :
    findAndClickListing o = (false, [Call.listingExtract, Call.fallbackExtract]) := by
  unfold findAndClickListing
  rw [h3a, h3b]
  simp

theorem removeFromBroker_listing_fail (b : Broker) (u : User) (o : Oracle)
    (h1 : o.navFailure = none) (h2 : needsSearchVal o b = true)
    (h3 : listingFoundVal o = false) :
    removeFromBroker b u o =
      (⟨b.name, false, some "Could not find user listing", none, none, none⟩,
       [Call.navigate, Call.searchExtract, Call.searchAct, Call.listingExtract,
        Call.fallbackExtract]) := by
  unfold needsSearchVal at h2
  unfold listingFoundVal at h3
  rw [Bool.or_eq_false_iff] at h3
  obtain ⟨h3a, h3b⟩ := h3
  have hfc := findAndClickListing_fail_val o h3a h3b
  unfold removeFromBroker
  rw [h1]
  unfold checkIfNeedsSearch
  dsimp only
  rw [h2, if_pos rfl, hfc]
  rfl

theorem removeFromBroker_no_search (b : Broker) (u : User) (o : Oracle)
    (h1 : o.navFailure = none) (h2 : needsSearchVal o b = false) :
    removeFromBroker b u o =
      afterListingPhases b o [Call.navigate, Call.searchExtract] := by
  unfold needsSearchVal at h2
  unfold removeFromBroker
  rw [h1]
  unfold checkIfNeedsSearch
  dsimp only
  rw [h2, if_neg (by simp)]

theorem removeFromBroker_search_found (b : Broker) (u : User) (o : Oracle)
    (h1 : o.navFailure = none) (h2 : needsSearchVal o b = true)
    (h3 : listingFoundVal o = true) :
    removeFromBroker b u o =
      afterListingPhases b o
        ([Call.navigate, Call.searchExtract, Call.searchAct] ++
          (findAndClickListing o).2) := by
  unfold needsSearchVal at h2
  have hfv : (findAndClickListing o).1 = true := by
    unfold listingFoundVal at h3
    unfold findAndClickListing
    cases hfc : (o.listingCheck.foundListing && o.listingCheck.clickedListing) with
    | true => simp
    | false =>
      rw [hfc] at h3
      simp only [Bool.false_or] at h3
      simp [h3]
  unfold removeFromBroker
  rw [h1]
  unfold checkIfNeedsSearch
  dsimp only
  rw [h2, if_pos rfl, hfv, if_pos rfl]
  rfl

/-- Claim C2: when navigation succeeds, the attempt enters the search phase,
and neither the exact listing probe nor the relaxed retry reports a listing
found and clicked, the attempt terminates with success = false and error
exactly "Could not find user listing", and the trace contains no fill-phase,
consent-phase, submit-phase or verify-phase oracle call. -/
theorem listing_not_found_terminates (b : Broker) (u : User) (o : Oracle)
    (h1 : o.navFailure = none) (h2 : needsSearchVal o b = true)
    (h3 : listingFoundVal o = false) :
    (removeFromBroker b u o).1.success = false ∧
    (removeFromBroker b u o).1.error = some "Could not find user listing" ∧
    (removeFromBroker b u o).2.filter isLaterPhaseCall = [] := by
  rw [removeFromBroker_listing_fail b u o h1 h2 h3]
  exact ⟨rfl, rfl, rfl⟩

/-- Claim C2, witness: the listing-not-found script on a search-first broker,
evaluated concretely. -/
theorem listing_not_found_witness :
    (removeFromBroker exBroker exUser exOracleListingFail).1.success = false ∧
    (removeFromBroker exBroker exUser exOracleListingFail).1.error =
      some "Could not find user listing" ∧
    (removeFromBroker exBroker exUser exOracleListingFail).2.filter
      isLaterPhaseCall = [] :=
  listing_not_found_terminates exBroker exUser exOracleListingFail
    (by decide) (by decide) (by decide)

theorem verify_withFailedScreenshot (o : Oracle) :
    verifySubmission (withFailedScreenshot o) = verifySubmission o := rfl

theorem nav_withFailedScreenshot (o : Oracle) :
    (withFailedScreenshot o).navFailure = o.navFailure := rfl

theorem needs_withFailedScreenshot (o : Oracle) (b : Broker) :
    needsSearchVal (withFailedScreenshot o) b = needsSearchVal o b := rfl

theorem listing_withFailedScreenshot (o : Oracle) :
    listingFoundVal (withFailedScreenshot o) = listingFoundVal o := rfl

theorem findAndClick_withFailedScreenshot (o : Oracle) :
    findAndClickListing (withFailedScreenshot o) = findAndClickListing o := rfl

theorem afterListing_invariance (b : Broker) (o : Oracle) (pre pre' : List Call) :
    (afterListingPhases b (withFailedScreenshot o) pre').1.success =
      (afterListingPhases b o pre).1.success ∧
    (afterListingPhases b (withFailedScreenshot o) pre').1.error =
      (afterListingPhases b o pre).1.error ∧
    (afterListingPhases b (withFailedScreenshot o) pre').1.details =
      (afterListingPhases b o pre).1.details := by
  obtain ⟨hs1, he1, hd1⟩ := afterListing_result b (withFailedScreenshot o) pre'
  obtain ⟨hs2, he2, hd2⟩ := afterListing_result b o pre
  rw [verify_withFailedScreenshot] at hs1 hd1
  exact ⟨hs1.trans hs2.symm, he1.trans he2.symm, hd1.trans hd2.symm⟩

/-- Claim C3 (amended): on every terminal path except the listing-not-found
early exit, exactly one evidence snapshot is attempted before the result is
returned; and a failing snapshot capture never changes the result's success,
error or details fields.  (As stated the claim fails: the listing-not-found
exit returns a terminal Failure without attempting any snapshot.) -/
theorem snapshot_once_and_invariant (b : Broker) (u : User) (o : Oracle) :
    (listingNotFoundExit b o = false →
      (removeFromBroker b u o).2.count Call.screenshotCall = 1) ∧
    ((removeFromBroker b u (withFailedScreenshot o)).1.success =
        (removeFromBroker b u o).1.success ∧
      (removeFromBroker b u (withFailedScreenshot o)).1.error =
        (removeFromBroker b u o).1.error ∧
      (removeFromBroker b u (withFailedScreenshot o)).1.details =
        (removeFromBroker b u o).1.details) := by
  cases hnav : o.navFailure with
  | some msg =>
    have hnav' : (withFailedScreenshot o).navFailure = some msg := hnav
    rw [removeFromBroker_nav_fail b u o msg hnav,
      removeFromBroker_nav_fail b u (withFailedScreenshot o) msg hnav']
    exact ⟨fun _ => rfl, rfl, rfl, rfl⟩
  | none =>
    have hnav' : (withFailedScreenshot o).navFailure = none := hnav
    cases hns : needsSearchVal o b with
    | false =>
      have hns' : needsSearchVal (withFailedScreenshot o) b = false := hns
      rw [removeFromBroker_no_search b u o hnav hns,
        removeFromBroker_no_search b u (withFailedScreenshot o) hnav' hns']
      constructor
      · intro _
        rw [afterListing_snap_count]
        rfl
      · exact afterListing_invariance b o _ _
    | true =>
      have hns' : needsSearchVal (withFailedScreenshot o) b = true := hns
      cases hlf : listingFoundVal o with
      | false =>
        have hlf' : listingFoundVal (withFailedScreenshot o) = false := hlf
        have hexit : listingNotFoundExit b o = true := by
          unfold listingNotFoundExit
          rw [hnav, hns, hlf]
          rfl
        rw [removeFromBroker_listing_fail b u o hnav hns hlf,
          removeFromBroker_listing_fail b u (withFailedScreenshot o) hnav' hns' hlf']
        constructor
        · intro hfalse
          rw [hexit] at hfalse
          cases hfalse
        · exact ⟨rfl, rfl, rfl⟩
      | true =>
        have hlf' : listingFoundVal (withFailedScreenshot o) = true := hlf
        rw [removeFromBroker_search_found b u o hnav hns hlf,
          removeFromBroker_search_found b u (withFailedScreenshot o) hnav' hns' hlf']
        constructor
        · intro _
          rw [afterListing_snap_count]
          rw [List.count_append]
          rw [listing_no_snap]
          rfl
        · rw [findAndClick_withFailedScreenshot]
          exact afterListing_invariance b o _ _

/-- Claim C3, counterexample: the listing-not-found script reaches a
terminal Failure verdict with zero snapshot attempts in its trace. -/
theorem snapshot_missing_cex :
    (removeFromBroker exBroker exUser exOracleListingFail).2.count
        Call.screenshotCall = 0 ∧
      (removeFromBroker exBroker exUser exOracleListingFail).1.success = false := by
  decide

/-- Claim C3, witness: a full successful attempt issues exactly one
snapshot call. -/
theorem snapshot_once_witness :
    (removeFromBroker exBroker exUser exOracleSuccess).2.count
      Call.screenshotCall = 1 :=
  (snapshot_once_and_invariant exBroker exUser exOracleSuccess).1 (by decide)

theorem mainLoop_length (u : User) (bs : List (Broker × Oracle)) :
    ∀ s : Session, (mainLoop u bs s).length = bs.length := by
  induction bs with
  | nil => intro s; rfl
  | cons p rest ih =>
    intro s
    cases p with
    | mk b o =>
      simp only [mainLoop, List.length_cons]
      rw [ih]

theorem mainLoop_getD (u : User) (bs : List (Broker × Oracle)) :
    ∀ (s : Session) (k : Nat), k < bs.length →
      ((mainLoop u bs s).getD k blankSession).results =
        s.results ++
          (bs.map (fun p => (removeFromBroker p.1 u p.2).1)).take (k + 1) := by
  induction bs with
  | nil =>
    intro s k h
    simp at h
  | cons p rest ih =>
    intro s k h
    cases p with
    | mk b o =>
      cases k with
      | zero =>
        simp [mainLoop, List.getD_cons_zero]
      | succ k' =>
        simp only [mainLoop, List.getD_cons_succ]
        rw [ih _ k' (by simpa using h)]
        simp [List.take_succ_cons, List.append_assoc]

/-- Claim C8: the session file is rewritten once per broker (one write per
processed broker), and the file written after the (k+1)-th broker holds
exactly k+1 results, equal to the first k+1 attempt results in processing
order -- so a crash after any broker loses no completed results. -/
theorem session_persistence (u : User) (bs : List (Broker × Oracle)) (k : Nat)
    (h : k < bs.length) :
    (runWrites u bs).length = bs.length ∧
    ((runWrites u bs).getD k blankSession).results = (allResults u bs).take (k + 1) ∧
    ((runWrites u bs).getD k blankSession).results.length = k + 1 := by
  have hlen := mainLoop_length u bs ⟨u, []⟩
  have hget := mainLoop_getD u bs ⟨u, []⟩ k h
  simp only [List.nil_append] at hget
  refine ⟨hlen, hget, ?_⟩
  show ((mainLoop u bs ⟨u, []⟩).getD k blankSession).results.length = k + 1
  rw [hget]
  rw [List.length_take]
  rw [List.length_map]
  omega

/-- Claim C8, witness: a concrete two-broker run, checked after its second
broker. -/
theorem session_persistence_witness :
    (runWrites exUser exRun).length = 2 ∧
    ((runWrites exUser exRun).getD 1 blankSession).results =
      (allResults exUser exRun).take 2 ∧
    ((runWrites exUser exRun).getD 1 blankSession).results.length = 2 :=
  session_persistence exUser exRun 1 (by decide)
